import Mathlib

/-
  Verification development for the sigma-cloud-neppo-integration repository.

  The authentication/authorization core is embedded shallowly:

  * the Token Issuer (src/expressium/services/getAuthentication.service.ts and
    src/expressium/src/services/app.service.ts, function getAuthentication);
  * the Token Authorizer (src/unnamed/part_015 and src/unnamed/part_021,
    function getAuthorization);
  * the Credential Exchange Cache (src/unnamed/part_010 and src/unnamed/part_020,
    class BasicAndBearerStrategy: obtainToken, isTokenValid, invalidateToken,
    authenticate; the two variants agree on this logic verbatim).

  Strings manipulated by the JavaScript code are modelled as List Char so that
  the character-level operations of the source (String.prototype.split,
  startsWith, slice, parseInt, base64 decoding) have direct structural
  counterparts.  External collaborators (the bcrypt comparison, the user store,
  the JWT verification routine, the HTTP transport and the response extractors)
  are passed in as explicit function or oracle arguments, exactly at the points
  where the source calls them.
-/

namespace SigmaNeppo

/-- Model of the JavaScript s.split(sep) for a single-character separator:
splitting the empty string yields one empty field, and every occurrence of the
separator starts a new field. -/
def splitChar (sep : Char) : List Char → List (List Char)
  | [] => [[]]
  | c :: rest =>
    match splitChar sep rest with
    | [] => [[c]]
    | h :: t => if c = sep then [] :: h :: t else (c :: h) :: t

/-- Model of header.split(' ')[1] as used by both getAuthentication and
getAuthorization after the scheme prefix test has succeeded (so a space is
known to occur and the index is in range). -/
def secondWord (h : List Char) : List Char :=
  ((splitChar ' ' h).get? 1).getD []

/-- Numeric value of a string of decimal digits, most significant first. -/
def digitsVal (ds : List Char) : Nat :=
  ds.foldl (fun acc c => acc * 10 + (c.toNat - 48)) 0

/-- Model of the JavaScript parseInt on the inputs the issuer feeds it (the
slice(0, -1) of the configured lifetime string): the longest leading run of
decimal digits is parsed; an empty run gives NaN, modelled as none. -/
def jsParseInt (cs : List Char) : Option Int :=
  let ds := cs.takeWhile Char.isDigit
  if ds.isEmpty then none else some (digitsVal ds)

/-- Value of a character in the standard base64 alphabet, none otherwise. -/
def b64Val (c : Char) : Option Nat :=
  if 65 ≤ c.toNat ∧ c.toNat ≤ 90 then some (c.toNat - 65)
  else if 97 ≤ c.toNat ∧ c.toNat ≤ 122 then some (c.toNat - 97 + 26)
  else if 48 ≤ c.toNat ∧ c.toNat ≤ 57 then some (c.toNat - 48 + 52)
  else if c = '+' then some 62
  else if c = '/' then some 63
  else none

/-- Decode a run of 6-bit values into bytes: full groups of four values give
three bytes, a trailing group of three gives two bytes, of two gives one byte,
and a lone trailing value is dropped (the forgiving decoding of Buffer.from
with the base64 encoding). -/
def b64Quads : List Nat → List Nat
  | a :: b :: c :: d :: rest =>
    (a * 4 + b / 16) :: ((b % 16) * 16 + c / 4) :: ((c % 4) * 64 + d) :: b64Quads rest
  | [a, b, c] => [a * 4 + b / 16, (b % 16) * 16 + c / 4]
  | [a, b] => [a * 4 + b / 16]
  | _ => []

/-- Model of Buffer.from(s, 'base64').toString('ascii'): characters outside the
base64 alphabet (including padding) are skipped, the 6-bit values are packed
into bytes, and the ascii decoding keeps the low seven bits of each byte. -/
def b64decodeAscii (cs : List Char) : List Char :=
  (b64Quads (cs.filterMap b64Val)).map (fun b => Char.ofNat (b % 128))

/-- Milliseconds per lifetime unit, as written in the switch of the issuer. -/
def unitMs (u : Char) : Int :=
  if u = 's' then 1000
  else if u = 'm' then 60 * 1000
  else if u = 'h' then 60 * 60 * 1000
  else if u = 'd' then 24 * 60 * 60 * 1000
  else 0

/-- Model of the expiresIn computation of getAuthentication (both variants):
parseInt of slice(0, -1), switch on slice(-1) over the units s, m, h and d,
with the default branch returning now plus one hour regardless of the parsed
integer.  A NaN arithmetic result is modelled as none. -/
def computeExpiresIn (cs : List Char) (now : Int) : Option Int :=
  let n? := jsParseInt cs.dropLast
  let u? := cs.getLast?
  if u? = some 's' then n?.map (fun n => now + n * 1000)
  else if u? = some 'm' then n?.map (fun n => now + n * 60 * 1000)
  else if u? = some 'h' then n?.map (fun n => now + n * 60 * 60 * 1000)
  else if u? = some 'd' then n?.map (fun n => now + n * 24 * 60 * 60 * 1000)
  else some (now + 3600 * 1000)

/-- Unit words accepted by the ms timespan parser that JWT.sign applies to a
string expiresIn option, lowercased. -/
def msUnits : List (List Char) :=
  ["years", "year", "yrs", "yr", "y", "weeks", "week", "w", "days", "day", "d",
   "hours", "hour", "hrs", "hr", "h", "minutes", "minute", "mins", "min", "m",
   "seconds", "second", "secs", "sec", "s",
   "milliseconds", "millisecond", "msecs", "msec", "ms"].map String.data

/-- Nonempty and consisting of decimal digits only. -/
def digitsOnly (cs : List Char) : Bool := !cs.isEmpty && cs.all Char.isDigit

/-- Number part of the ms grammar: an optional minus sign, then digits with at
most one decimal point and at least one digit after the point. -/
def msNumberOk (cs : List Char) : Bool :=
  let body := if cs.head? = some '-' then cs.tail else cs
  match splitChar '.' body with
  | [ds] => digitsOnly ds
  | [intPart, fracPart] => (intPart.isEmpty || intPart.all Char.isDigit) && digitsOnly fracPart
  | _ => false

/-- Modelled from the documented grammar of the ms package: a number, optional
spaces, and an optional case-insensitive unit word, anchored at both ends.
The unit is the maximal alphabetic suffix of the string and only spaces may
separate it from the number. -/
def msAccepts (cs : List Char) : Bool :=
  let rev := cs.reverse
  let unitRev := rev.takeWhile Char.isAlpha
  let numberRev := (rev.drop unitRev.length).dropWhile (fun c => c = ' ')
  msNumberOk numberRev.reverse &&
    (unitRev.isEmpty || msUnits.contains ((unitRev.reverse).map Char.toLower))

/-- Whether the JWT.sign call of the issuer throws for the given
JWT_EXPIRES_IN value: jsonwebtoken validates the expiresIn option it is
handed, rejecting an undefined value (the option key is present on the
options object either way) and any string the ms parser cannot interpret. -/
def signThrows : Option (List Char) → Bool
  | none => true
  | some cfg => !msAccepts cfg

/-- User record as read from the user store (prisma users row): only the
fields the issuer consults.  The password hash is the TextDecoder decoding of
the stored bytes, which bcrypt.compareSync receives as its second argument. -/
structure UserRec where
  isActive : Bool
  passwordHash : List Char
  roleList : List String
deriving DecidableEq, Repr

/-- Result value of a getAuthentication call, abstracting the HTTP response
bodies to their distinguishing branch.  The success branch carries the fields
the response and the signed token both embed (the token claims are exactly the
triple username, roleList, expiresIn, so the success value stands for both). -/
inductive IssueOutcome where
  | configUnavailable
  | missingHeader
  | invalidScheme
  | invalidUsername
  | inactiveAccount
  | incorrectPassword
  | internalError
  | success (username : List Char) (roleList : List String) (expiresIn : Option Int)
deriving DecidableEq, Repr

/-- Destructuring of the decoded basic payload as the source performs it:
payload.split(':') with username the element at index 0 and password the
element at index 1 (undefined, modelled none, when the payload has no colon;
the text after a second colon is silently dropped). -/
def credentialsOfPayload (payload : List Char) : List Char × Option (List Char) :=
  let parts := splitChar ':' payload
  (parts.headD [], parts.get? 1)

/-- Splitting of the decoded basic payload as the specification words it:
username is the text before the first colon and password is the entire
remainder, so passwords may contain colons.  Modelled from the spec for
comparison with credentialsOfPayload; none when the payload has no colon. -/
def specSplitFirstColon (payload : List Char) : List Char × Option (List Char) :=
  match splitChar ':' payload with
  | [] => ([], none)
  | [u] => (u, none)
  | u :: p :: rest => (u, some (p ++ (rest.map (fun r => ':' :: r)).flatten))

/-- Issuer variant of src/expressium/services/getAuthentication.service.ts.
The store argument is the prisma lookup by username (the application type is
fixed by the environment) and compare is bcrypt.compareSync on defined
strings.  This variant has no try/catch, so two calls can throw uncaught and
reject the promise (the Except error value): compareSync when the destructured
password is undefined, and JWT.sign when the raw JWT_EXPIRES_IN handed to its
expiresIn option is undefined or not an ms timespan.  The switch computing the
embedded expiresIn claim defaults the lifetime string to 1h when absent, but
the sign options use the raw environment value. -/
def getAuthenticationService (secretConfigured : Bool) (header : Option (List Char))
    (store : List Char → Option UserRec) (compare : List Char → List Char → Bool)
    (jwtExpiresIn : Option (List Char)) (now : Int) : Except Unit IssueOutcome :=
  if !secretConfigured then .ok .configUnavailable
  else match header with
  | none => .ok .missingHeader
  | some h =>
    if h.isEmpty then .ok .missingHeader
    else if !(List.isPrefixOf "Basic ".data h) then .ok .invalidScheme
    else
      let payload := b64decodeAscii (secondWord h)
      let (username, password?) := credentialsOfPayload payload
      match store username with
      | none => .ok .invalidUsername
      | some user =>
        if !user.isActive then .ok .inactiveAccount
        else match password? with
          | none => .error ()
          | some password =>
            if !compare password user.passwordHash then .ok .incorrectPassword
            else if signThrows jwtExpiresIn then .error ()
            else .ok (.success username user.roleList
              (computeExpiresIn (jwtExpiresIn.getD "1h".data) now))

/-- Issuer variant of src/expressium/src/services/app.service.ts.  It returns
the configuration 500 when JWT_SECRET or JWT_EXPIRES_IN is absent, before the
header checks; the body from the credential destructuring onward sits in a
try/catch whose handler returns the 500 response, so the undefined-password
throw of compareSync and the JWT.sign throw on an ms-unrecognized lifetime
become the internalError result instead of a rejection. -/
def appServiceGetAuthentication (secretConfigured : Bool) (header : Option (List Char))
    (store : List Char → Option UserRec) (compare : List Char → List Char → Bool)
    (jwtExpiresIn : Option (List Char)) (now : Int) : IssueOutcome :=
  if !secretConfigured then .configUnavailable
  else match jwtExpiresIn with
  | none => .configUnavailable
  | some cfg =>
    match header with
    | none => .missingHeader
    | some h =>
      if h.isEmpty then .missingHeader
      else if !(List.isPrefixOf "Basic ".data h) then .invalidScheme
      else
        let payload := b64decodeAscii (secondWord h)
        let (username, password?) := credentialsOfPayload payload
        match store username with
        | none => .invalidUsername
        | some user =>
          if !user.isActive then .inactiveAccount
          else match password? with
            | none => .internalError
            | some password =>
              if !compare password user.passwordHash then .incorrectPassword
              else if !(msAccepts cfg) then .internalError
              else .success username user.roleList (computeExpiresIn cfg now)

/-- Claims carried by a decoded token (interfaces IDecodedTokenMap and
IDecodedToken): username, roleList, and the embedded application-level
expiresIn epoch-millisecond claim, optional so that its absence in the decoded
payload is representable. -/
structure DecodedToken where
  username : List Char
  roleList : List String
  expiresIn : Option Int
deriving DecidableEq, Repr

/-- Outcome of the JWT.verify call: the decoded payload on success, or the
error class thrown (JsonWebTokenError, NotBeforeError, TokenExpiredError). -/
inductive VerifyResult where
  | ok (payload : DecodedToken)
  | jsonWebTokenError
  | notBeforeError
  | tokenExpiredError
deriving DecidableEq, Repr

/-- The response bodies getAuthorization can emit through res, abstracted to
their distinguishing branch.  The tokenNotActive kind corresponds to source
branches that turn out to be dead code (see the dispatch note on the
authorizer definitions) and is never produced by the embeddings. -/
inductive RespKind where
  | serverError
  | missingHeader
  | invalidScheme
  | insufficientRole
  | tokenExpired
  | tokenInvalid
  | tokenNotActive
deriving DecidableEq, Repr

/-- Observable behaviour of one getAuthorization call: the value the function
returns directly (the part_015 variant returns the configuration-error
response instead of sending it), the responses sent through res in order, the
payload attached to the request, and whether next() was invoked. -/
structure AuthzOutcome where
  returned : Option RespKind
  responses : List RespKind
  attached : Option DecodedToken
  nextCalled : Bool
deriving DecidableEq, Repr

/-- JavaScript truthiness of decodedTokenMap.expiresIn: false for an absent
field and for the number 0. -/
def expiresInTruthy : Option Int → Bool
  | none => false
  | some v => v != 0

/-- Responses emitted by the roleList?.forEach role check: the callback sends
one insufficient-role response per missing required role, and its return
statement exits only the callback, so the iteration and the enclosing function
both continue past it. -/
def roleCheckResponses (required : List String) (held : List String) : List RespKind :=
  ((required.filter (fun r => !held.contains r)).map (fun _ => RespKind.insufficientRole))

/-- Authorizer variant of src/unnamed/part_015 (middlewares): requires the
Bearer scheme prefix, verifies the second word of the header, runs the
role-check forEach (which cannot abort the function), then the truthiness-
guarded application-level expiry check, and otherwise attaches the payload and
calls next.  The catch dispatches on instanceof with JsonWebTokenError tested
first; NotBeforeError and TokenExpiredError are subclasses of it in the
jsonwebtoken library, so every verify error satisfies the first test and is
sent as the invalid-token response, leaving the dedicated not-active and
expired branches of the source dead code. -/
def getAuthorizationPart015 (secretConfigured : Bool) (header : Option (List Char))
    (roleList? : Option (List String)) (verify : List Char → VerifyResult)
    (now : Int) : AuthzOutcome :=
  if !secretConfigured then ⟨some .serverError, [], none, false⟩
  else match header with
  | none => ⟨none, [.missingHeader], none, false⟩
  | some h =>
    if h.isEmpty then ⟨none, [.missingHeader], none, false⟩
    else if !(List.isPrefixOf "Bearer ".data h) then ⟨none, [.invalidScheme], none, false⟩
    else
      match verify (secondWord h) with
      | .jsonWebTokenError => ⟨none, [.tokenInvalid], none, false⟩
      | .notBeforeError => ⟨none, [.tokenInvalid], none, false⟩
      | .tokenExpiredError => ⟨none, [.tokenInvalid], none, false⟩
      | .ok payload =>
        let roleResponses := roleCheckResponses (roleList?.getD []) payload.roleList
        if expiresInTruthy payload.expiresIn && decide (now > payload.expiresIn.getD 0) then
          ⟨none, roleResponses ++ [.tokenExpired], none, false⟩
        else
          ⟨none, roleResponses, some payload, true⟩

/-- Authorizer variant of src/unnamed/part_021 (app.service middleware): the
missing-secret 500 is sent through res like every other response, a missing
header is a 401 missing-token response, a Bearer prefix is stripped when
present and the bare header is verified otherwise, the role-check forEach
behaves as in part_015, and the application-level expiry check is guarded by
field presence instead of truthiness.  The catch has the same instanceof
ordering as part_015, so all three verify error classes land in the first
JsonWebTokenError branch and yield the invalid-token response. -/
def getAuthorizationPart021 (secretConfigured : Bool) (header : Option (List Char))
    (roleList? : Option (List String)) (verify : List Char → VerifyResult)
    (now : Int) : AuthzOutcome :=
  if !secretConfigured then ⟨none, [.serverError], none, false⟩
  else match header with
  | none => ⟨none, [.missingHeader], none, false⟩
  | some h =>
    if h.isEmpty then ⟨none, [.missingHeader], none, false⟩
    else
      let token := if List.isPrefixOf "Bearer ".data h then secondWord h else h
      match verify token with
      | .jsonWebTokenError => ⟨none, [.tokenInvalid], none, false⟩
      | .notBeforeError => ⟨none, [.tokenInvalid], none, false⟩
      | .tokenExpiredError => ⟨none, [.tokenInvalid], none, false⟩
      | .ok payload =>
        let roleResponses := roleCheckResponses (roleList?.getD []) payload.roleList
        if payload.expiresIn.isSome && decide (now > payload.expiresIn.getD 0) then
          ⟨none, roleResponses ++ [.tokenExpired], none, false⟩
        else
          ⟨none, roleResponses, some payload, true⟩

/-- Mutable fields of a BasicAndBearerStrategy instance: the cached bearer
token (null initially) and its expiry epoch timestamp in milliseconds
(0 initially, that is, already expired). -/
structure CacheState where
  token : Option String
  expiresAt : Int
deriving DecidableEq, Repr

deriving instance DecidableEq for Except

/-- One attempt of the exchange call as obtainToken observes it: either the
awaited axios call rejects, or it yields a response on which the configured
tokenExtractor and expirationExtractor each either throw or return a value. -/
inductive ExchangeOutcome where
  | transportError
  | response (tokenResult : Except Unit String) (expiryResult : Except Unit Int)
deriving DecidableEq, Repr

/-- BasicAndBearerStrategy.obtainToken of src/unnamed/part_010 and part_020:
the extractors run after the transport call and before any assignment; only
when the call and both extractors succeed are this.token and this.expiresAt
assigned (expiresAt as now plus the extracted expiry minus the expiration
buffer), and the catch block rethrows a wrapped error leaving state alone. -/
def obtainToken (buffer : Int) (st : CacheState) (now : Int)
    (attempt : ExchangeOutcome) : Except Unit String × CacheState :=
  match attempt with
  | .transportError => (.error (), st)
  | .response tokenResult expiryResult =>
    match tokenResult with
    | .error _ => (.error (), st)
    | .ok token =>
      match expiryResult with
      | .error _ => (.error (), st)
      | .ok expiresIn => (.ok token, ⟨some token, now + expiresIn - buffer⟩)

/-- BasicAndBearerStrategy.isTokenValid: the double-negated truthiness of
this.token (false for null and for the empty string) conjoined with the strict
comparison of the current time against the stored expiry. -/
def isTokenValid (st : CacheState) (now : Int) : Bool :=
  (match st.token with
   | none => false
   | some t => t != "") && decide (now < st.expiresAt)

/-- BasicAndBearerStrategy.invalidateToken: clears the token and resets the
expiry to 0. -/
def invalidateToken (_st : CacheState) : CacheState := ⟨none, 0⟩

/-- BasicAndBearerStrategy.authenticate: when the cached token is invalid a
single obtainToken exchange runs (whose rejection propagates), and the
Authorization header is built from this.token afterwards.  The Nat component
counts the transport calls the invocation performs. -/
def authenticate (buffer : Int) (st : CacheState) (now : Int)
    (attempt : ExchangeOutcome) : Except Unit String × CacheState × Nat :=
  if isTokenValid st now then (.ok ((st.token).getD ""), st, 0)
  else
    match obtainToken buffer st now attempt with
    | (.error e, st2) => (.error e, st2, 1)
    | (.ok _, st2) => (.ok ((st2.token).getD ""), st2, 1)

/-- Splitting a list that does not contain the separator yields the single
field holding the whole list. -/
theorem splitChar_no_sep (sep : Char) : ∀ (t : List Char), sep ∉ t →
    splitChar sep t = [t] := by
  intro t
  induction t with
  | nil => intro _; rfl
  | cons c rest ih =>
    intro hmem
    have hc : c ≠ sep := fun h => hmem (h ▸ List.mem_cons_self c rest)
    have hrest : sep ∉ rest := fun h => hmem (List.mem_cons_of_mem c h)
    simp [splitChar, ih hrest, hc]

/-- A list is a Boolean prefix of itself followed by anything. -/
theorem isPrefixOf_append_self : ∀ (p t : List Char), List.isPrefixOf p (p ++ t) = true := by
  intro p t
  induction p with
  | nil => simp [List.isPrefixOf]
  | cons a as ih => simp [List.isPrefixOf, ih]

/-- The second space-separated word of a Bearer-prefixed header is the token,
provided the token itself contains no space. -/
theorem secondWord_bearer (t : List Char) (h : ' ' ∉ t) :
    secondWord ("Bearer ".data ++ t) = t := by
  have h1 : splitChar ' ' t = [t] := splitChar_no_sep ' ' t h
  show secondWord ('B' :: 'e' :: 'a' :: 'r' :: 'e' :: 'r' :: ' ' :: t) = t
  simp [secondWord, splitChar, h1]

/-- On a nonempty all-digit string, the modelled parseInt returns its value. -/
theorem jsParseInt_digits (ds : List Char) (hne : ds ≠ [])
    (hdig : ∀ c ∈ ds, c.isDigit) : jsParseInt ds = some (digitsVal ds) := by
  have htw : ds.takeWhile Char.isDigit = ds := by
    induction ds with
    | nil => rfl
    | cons c rest ih =>
      have hc : c.isDigit := hdig c (List.mem_cons_self c rest)
      simp only [List.takeWhile_cons, hc, if_true]
      by_cases hr : rest = []
      · simp [hr]
      · have := ih hr (fun x hx => hdig x (List.mem_cons_of_mem c hx))
        simp [this]
  simp [jsParseInt, htw, List.isEmpty_iff, hne]

/-- When every required role is held, the role-check forEach emits nothing. -/
theorem roleCheckResponses_nil (req held : List String)
    (h : ∀ r ∈ req, held.contains r = true) : roleCheckResponses req held = [] := by
  have hf : req.filter (fun r => !held.contains r) = [] := by
    rw [List.filter_eq_nil_iff]
    intro r hr
    have hcontains := h r hr
    simp at hcontains
    simp [hcontains]
  simp only [roleCheckResponses, hf, List.map_nil]

/-- The decimal digit characters, used to state that a lifetime string has the
integer-then-unit form. -/
def digitChars : List Char := ['0', '1', '2', '3', '4', '5', '6', '7', '8', '9']

/-- Character-level facts about every decimal digit needed to trace the ms
grammar: digits are digits, are not alphabetic, and differ from the minus
sign, the space and the decimal point. -/
theorem digitChars_facts (c : Char) (hc : c ∈ digitChars) :
    c.isDigit = true ∧ c.isAlpha = false ∧ c ≠ '-' ∧ c ≠ ' ' ∧ c ≠ '.' := by
  fin_cases hc <;> exact ⟨by decide, by decide, by decide, by decide, by decide⟩

/-- A nonempty all-digit string is a valid ms number. -/
theorem msNumberOk_digits (ds : List Char) (hne : ds ≠ [])
    (hdig : ∀ c ∈ ds, c ∈ digitChars) : msNumberOk ds = true := by
  obtain ⟨c, rest, rfl⟩ : ∃ c rest, ds = c :: rest := by
    cases ds with
    | nil => exact absurd rfl hne
    | cons c r => exact ⟨c, r, rfl⟩
  have hcfacts := digitChars_facts c (hdig c (List.mem_cons_self c rest))
  have hdot : '.' ∉ c :: rest := by
    intro hmem
    exact absurd (hdig '.' hmem) (by decide)
  have hsplit : splitChar '.' (c :: rest) = [c :: rest] := splitChar_no_sep '.' _ hdot
  simp [msNumberOk, hsplit, hcfacts.2.2.1, digitsOnly]
  exact ⟨hcfacts.1, fun x hx => (digitChars_facts x (hdig x (List.mem_cons_of_mem c hx))).1⟩

/-- Every digits-then-unit lifetime string with unit among s, m, h and d is
accepted by the ms parser, so JWT.sign does not throw on it. -/
theorem msAccepts_digits_unit (ds : List Char) (u : Char) (hne : ds ≠ [])
    (hdig : ∀ c ∈ ds, c ∈ digitChars)
    (hu : u = 's' ∨ u = 'm' ∨ u = 'h' ∨ u = 'd') :
    msAccepts (ds ++ [u]) = true := by
  have hua : u.isAlpha = true := by rcases hu with rfl | rfl | rfl | rfl <;> decide
  have hlow : u.toLower = u := by rcases hu with rfl | rfl | rfl | rfl <;> decide
  have hcont : [u] ∈ msUnits := by
    rcases hu with rfl | rfl | rfl | rfl <;> decide
  have htwAlpha : (ds.reverse).takeWhile Char.isAlpha = [] := by
    cases hd : ds.reverse with
    | nil => rfl
    | cons c rest =>
      have hc : c ∈ ds := List.mem_reverse.mp (hd ▸ List.mem_cons_self c rest)
      simp [List.takeWhile_cons, (digitChars_facts c (hdig c hc)).2.1]
  have hdw : (ds.reverse).dropWhile (fun c => c = ' ') = ds.reverse := by
    cases hd : ds.reverse with
    | nil => rfl
    | cons c rest =>
      have hc : c ∈ ds := List.mem_reverse.mp (hd ▸ List.mem_cons_self c rest)
      simp [List.dropWhile, (digitChars_facts c (hdig c hc)).2.2.2.1]
  have hnum : msNumberOk ds = true := msNumberOk_digits ds hne hdig
  simp [msAccepts, List.takeWhile_cons, hua, htwAlpha, hdw, hnum, hlow, hcont]

/-- Boolean test distinguishing failed exchange attempts (transport rejection,
or either extractor throwing) from fully successful ones. -/
def exchangeFailed : ExchangeOutcome → Bool
  | .response (.ok _) (.ok _) => false
  | _ => true

/-- Claim C7: every failed exchange attempt of the Credential Exchange Cache,
whether the transport rejects or the token or expiration extractor throws,
makes obtainToken fail and leaves the previously cached token and expiry
exactly as they were, and an authenticate call that had to exchange propagates
the failure with the cache equally untouched after its single transport
call. -/
theorem c7_exchange_failure_preserves_cache (buffer : Int) (st : CacheState)
    (now : Int) (attempt : ExchangeOutcome)
    (hfail : exchangeFailed attempt = true)
    (hmiss : isTokenValid st now = false) :
    obtainToken buffer st now attempt = (.error (), st) ∧
    authenticate buffer st now attempt = (.error (), st, 1) := by
  have hobtain : obtainToken buffer st now attempt = (.error (), st) := by
    cases attempt with
    | transportError => rfl
    | response tokenResult expiryResult =>
      cases tokenResult with
      | error e => rfl
      | ok tok =>
        cases expiryResult with
        | error e => rfl
        | ok expiresIn => simp [exchangeFailed] at hfail
  exact ⟨hobtain, by simp [authenticate, hmiss, hobtain]⟩

/-- Witness for C7 at a concrete cold-cache transport failure. -/
theorem c7_exchange_failure_preserves_cache_witness :
    exchangeFailed .transportError = true ∧
    isTokenValid ⟨some "old", 500⟩ 1000 = false ∧
    (obtainToken 60000 ⟨some "old", 500⟩ 1000 .transportError = (.error (), ⟨some "old", 500⟩) ∧
     authenticate 60000 ⟨some "old", 500⟩ 1000 .transportError = (.error (), ⟨some "old", 500⟩, 1)) :=
  ⟨by decide, by decide,
   c7_exchange_failure_preserves_cache 60000 ⟨some "old", 500⟩ 1000 .transportError
     (by decide) (by decide)⟩

/-- Claim C8: whenever the cache holds a token and the current time is
strictly before the stored expiry, authenticate performs zero transport calls,
returns the cached token unchanged, and leaves the cache state unmodified. -/
theorem c8_cache_hit_zero_transport (buffer : Int) (st : CacheState) (now : Int)
    (attempt : ExchangeOutcome) (t : String) (htok : st.token = some t)
    (hne : t ≠ "") (hfresh : now < st.expiresAt) :
    authenticate buffer st now attempt = (.ok t, st, 0) := by
  have hvalid : isTokenValid st now = true := by
    simp [isTokenValid, htok, hne, hfresh]
  simp [authenticate, hvalid, htok]

/-- Witness for C8 at a concrete fresh cache. -/
theorem c8_cache_hit_zero_transport_witness :
    (⟨some "tok", 2000⟩ : CacheState).token = some "tok" ∧ "tok" ≠ "" ∧
    ((1000 : Int) < 2000) ∧
    authenticate 60000 ⟨some "tok", 2000⟩ 1000 .transportError = (.ok "tok", ⟨some "tok", 2000⟩, 0) :=
  ⟨rfl, by decide, by decide,
   c8_cache_hit_zero_transport 60000 ⟨some "tok", 2000⟩ 1000 .transportError "tok"
     rfl (by decide) (by decide)⟩

/-- Claim C9: every successful exchange stores the expiry as now plus the
extracted expiry milliseconds minus the expiration buffer; in particular with
token abc, extracted expiry 1000 and buffer 100 the stored expiry is now plus
900, and an authenticate call 950 milliseconds after that now misses the cache
and performs a transport call. -/
theorem c9_expiry_formula_and_scenario (buffer : Int) (st st2 : CacheState)
    (now now2 : Int) (tok : String) (expiresIn : Int) (attempt2 : ExchangeOutcome) :
    obtainToken buffer st now (.response (.ok tok) (.ok expiresIn))
      = (.ok tok, ⟨some tok, now + expiresIn - buffer⟩) ∧
    obtainToken 100 st2 now2 (.response (.ok "abc") (.ok 1000))
      = (.ok "abc", ⟨some "abc", now2 + 900⟩) ∧
    (authenticate 100 ⟨some "abc", now2 + 900⟩ (now2 + 950) attempt2).2.2 = 1 := by
  refine ⟨rfl, ?_, ?_⟩
  · have harith : now2 + 1000 - 100 = now2 + 900 := by omega
    simp [obtainToken, harith]
  · have hvalid : isTokenValid ⟨some "abc", now2 + 900⟩ (now2 + 950) = false := by
      simp [isTokenValid]
    cases hob : obtainToken 100 ⟨some "abc", now2 + 900⟩ (now2 + 950) attempt2 with
    | mk r st3 => cases r <;> simp [authenticate, hvalid, hob]

/-- Claim C10: a cached empty-string token is never treated as a hit; even
while the stored expiry is in the future, isTokenValid is false and every
authenticate call performs a transport call. -/
theorem c10_empty_token_never_hit (buffer : Int) (st : CacheState) (now : Int)
    (attempt : ExchangeOutcome) (hempty : st.token = some "") :
    isTokenValid st now = false ∧ (authenticate buffer st now attempt).2.2 = 1 := by
  have hvalid : isTokenValid st now = false := by simp [isTokenValid, hempty]
  refine ⟨hvalid, ?_⟩
  cases hob : obtainToken buffer st now attempt with
  | mk r st3 => cases r <;> simp [authenticate, hvalid, hob]

/-- Witness for C10 at a concrete cache whose expiry is still in the future. -/
theorem c10_empty_token_never_hit_witness :
    (⟨some "", 999999⟩ : CacheState).token = some "" ∧
    ((5 : Int) < 999999) ∧
    (isTokenValid ⟨some "", 999999⟩ 5 = false ∧
     (authenticate 60000 ⟨some "", 999999⟩ 5 .transportError).2.2 = 1) :=
  ⟨rfl, by decide,
   c10_empty_token_never_hit 60000 ⟨some "", 999999⟩ 5 .transportError rfl⟩

/-- User store fixture: one active user bob whose stored hash is H. -/
def bobStore : List Char → Option UserRec :=
  fun u => if u = "bob".data then some ⟨true, "H".data, ["admin"]⟩ else none

/-- bcrypt comparison oracle fixture: the hash H verifies exactly the
plaintext pa:ss (bob's real password, which contains a colon). -/
def bobCompare : List Char → List Char → Bool :=
  fun pw stored => (pw == "pa:ss".data) && (stored == "H".data)

/-- Claim C1, divergence: the header Basic Ym9iOnBhOnNz decodes to the payload
bob:pa:ss; the source splits it on every colon and takes element 1 as the
password, so bob's actual password pa:ss is truncated to pa, the bcrypt
comparison fails, and both issuer variants answer incorrectPassword, whereas
the first-colon split of the spec recovers pa:ss, which the oracle accepts. -/
theorem c1_colon_password_truncated :
    credentialsOfPayload (b64decodeAscii (secondWord "Basic Ym9iOnBhOnNz".data))
      = ("bob".data, some "pa".data) ∧
    specSplitFirstColon (b64decodeAscii (secondWord "Basic Ym9iOnBhOnNz".data))
      = ("bob".data, some "pa:ss".data) ∧
    bobCompare "pa:ss".data "H".data = true ∧
    getAuthenticationService true (some "Basic Ym9iOnBhOnNz".data) bobStore bobCompare
      (some "1h".data) 0 = .ok .incorrectPassword ∧
    appServiceGetAuthentication true (some "Basic Ym9iOnBhOnNz".data) bobStore bobCompare
      (some "1h".data) 0 = .incorrectPassword := by
  decide

/-- bcrypt comparison oracle fixture: the hash H verifies exactly the
plaintext pa. -/
def paCompare : List Char → List Char → Bool :=
  fun pw stored => (pw == "pa".data) && (stored == "H".data)

/-- Counterexample to C5 as stated: with the configured lifetime 2x the switch
computes the one-hour fallback for the embedded claim, but the ms parser
rejects 2x, so the JWT.sign call throws and issue fails for valid credentials
(the header Basic Ym9iOnBh decodes to bob:pa): the getAuthentication.service
variant rejects and the app.service variant returns its 500 result, instead
of falling back to a one-hour lifetime. -/
theorem c5_unrecognized_unit_sign_throws :
    computeExpiresIn "2x".data 0 = some 3600000 ∧
    msAccepts "2x".data = false ∧
    getAuthenticationService true (some "Basic Ym9iOnBh".data) bobStore paCompare
      (some "2x".data) 0 = .error () ∧
    appServiceGetAuthentication true (some "Basic Ym9iOnBh".data) bobStore paCompare
      (some "2x".data) 0 = .internalError := by
  decide

/-- Claim C5 as amended: for every configured lifetime string of the form
digits-then-unit with unit among s, m, h and d, the issuer embeds the expiry
now plus the integer times the unit in milliseconds and issuance succeeds (the
ms parser accepts every such string, so JWT.sign does not throw); for a string
ending in a unit the switch does not recognize the embedded claim falls back
to now plus one hour, but issuance completes only if the whole string is still
an ms timespan — otherwise JWT.sign throws, the getAuthentication.service
variant rejects and the app.service variant returns its 500 result, rather
than issuing a one-hour token. -/
theorem c5_amended_lifetime_parsing (ds : List Char) (u : Char) (now : Int)
    (cs2 : List Char) (u2 : Char) (h : List Char) (un pw : List Char)
    (user : UserRec) (store : List Char → Option UserRec)
    (cmp : List Char → List Char → Bool) (cfgRej : List Char)
    (hne : ds ≠ []) (hdig : ∀ c ∈ ds, c ∈ digitChars)
    (hu : u = 's' ∨ u = 'm' ∨ u = 'h' ∨ u = 'd')
    (hu2 : u2 ≠ 's' ∧ u2 ≠ 'm' ∧ u2 ≠ 'h' ∧ u2 ≠ 'd')
    (hie : h.isEmpty = false) (hpfx : List.isPrefixOf "Basic ".data h = true)
    (hcred : credentialsOfPayload (b64decodeAscii (secondWord h)) = (un, some pw))
    (hstore : store un = some user) (hact : user.isActive = true)
    (hcmp : cmp pw user.passwordHash = true)
    (hrej : msAccepts cfgRej = false) :
    computeExpiresIn (ds ++ [u]) now = some (now + (digitsVal ds : Int) * unitMs u) ∧
    msAccepts (ds ++ [u]) = true ∧
    getAuthenticationService true (some h) store cmp (some (ds ++ [u])) now
      = .ok (.success un user.roleList (some (now + (digitsVal ds : Int) * unitMs u))) ∧
    computeExpiresIn (cs2 ++ [u2]) now = some (now + 3600 * 1000) ∧
    getAuthenticationService true (some h) store cmp (some cfgRej) now = .error () ∧
    appServiceGetAuthentication true (some h) store cmp (some cfgRej) now
      = .internalError := by
  have hdig2 : ∀ c ∈ ds, c.isDigit = true :=
    fun c hc => (digitChars_facts c (hdig c hc)).1
  have hparse := jsParseInt_digits ds hne hdig2
  have hms := msAccepts_digits_unit ds u hne hdig hu
  have hcompute : computeExpiresIn (ds ++ [u]) now
      = some (now + (digitsVal ds : Int) * unitMs u) := by
    have hdrop : (ds ++ [u]).dropLast = ds := by simp
    have hlast : (ds ++ [u]).getLast? = some u := by simp
    rcases hu with hcase | hcase | hcase | hcase <;> subst hcase <;>
      simp [computeExpiresIn, hdrop, hlast, hparse, unitMs] <;> ring
  refine ⟨hcompute, hms, ?_, ?_, ?_, ?_⟩
  · have hsign : signThrows (some (ds ++ [u])) = false := by simp [signThrows, hms]
    simp [getAuthenticationService, hie, hpfx, hcred, hstore, hact, hcmp, hsign, hcompute]
  · have hlast2 : (cs2 ++ [u2]).getLast? = some u2 := by simp
    obtain ⟨h1, h2, h3, h4⟩ := hu2
    simp [computeExpiresIn, hlast2, h1, h2, h3, h4]
  · have hsign : signThrows (some cfgRej) = true := by simp [signThrows, hrej]
    simp [getAuthenticationService, hie, hpfx, hcred, hstore, hact, hcmp, hsign]
  · simp [appServiceGetAuthentication, hie, hpfx, hcred, hstore, hact, hcmp, hrej]

/-- Witness for the amended C5 at the configured lifetime 2h of the spec
scenario, the rejected configuration 2x, and the fixture user bob. -/
theorem c5_amended_lifetime_parsing_witness :
    ((['2'] : List Char) ≠ [] ∧
     credentialsOfPayload (b64decodeAscii (secondWord "Basic Ym9iOnBh".data))
       = ("bob".data, some "pa".data) ∧
     msAccepts "2x".data = false) ∧
    computeExpiresIn (['2'] ++ ['h']) 0 = some (0 + (digitsVal ['2'] : Int) * unitMs 'h') ∧
    msAccepts (['2'] ++ ['h']) = true ∧
    getAuthenticationService true (some "Basic Ym9iOnBh".data) bobStore paCompare
      (some (['2'] ++ ['h'])) 0
      = .ok (.success "bob".data ["admin"] (some (0 + (digitsVal ['2'] : Int) * unitMs 'h'))) ∧
    computeExpiresIn (['2'] ++ ['x']) 0 = some (0 + 3600 * 1000) ∧
    getAuthenticationService true (some "Basic Ym9iOnBh".data) bobStore paCompare
      (some "2x".data) 0 = .error () ∧
    appServiceGetAuthentication true (some "Basic Ym9iOnBh".data) bobStore paCompare
      (some "2x".data) 0 = .internalError := by
  have h := c5_amended_lifetime_parsing ['2'] 'h' 0 ['2'] 'x'
    "Basic Ym9iOnBh".data "bob".data "pa".data ⟨true, "H".data, ["admin"]⟩
    bobStore paCompare "2x".data
    (by decide) (by decide) (by decide) (by decide) (by decide) (by decide)
    (by decide) (by decide) (by decide) (by decide) (by decide)
  exact ⟨⟨by decide, by decide, by decide⟩, h.1, h.2.1, h.2.2.1, h.2.2.2.1,
    h.2.2.2.2.1, h.2.2.2.2.2⟩

/-- JWT verification oracle fixture: the token tok decodes to alice holding
only the role user, with a far-future embedded expiry; all other inputs fail
signature verification. -/
def aliceVerify : List Char → VerifyResult :=
  fun t =>
    if t = "tok".data then .ok ⟨"alice".data, ["user"], some 999999⟩
    else .jsonWebTokenError

/-- Claim C2, divergence: with required role admin and a validly signed token
holding only the role user, both authorizer variants send the insufficient-
role response, yet the return inside the forEach callback exits only the
callback, so both variants then attach the decoded claims to the request and
invoke next. -/
theorem c2_role_check_does_not_abort :
    getAuthorizationPart015 true (some "Bearer tok".data) (some ["admin"]) aliceVerify 5
      = ⟨none, [.insufficientRole], some ⟨"alice".data, ["user"], some 999999⟩, true⟩ ∧
    getAuthorizationPart021 true (some "Bearer tok".data) (some ["admin"]) aliceVerify 5
      = ⟨none, [.insufficientRole], some ⟨"alice".data, ["user"], some 999999⟩, true⟩ := by
  decide

/-- Counterexample to C3 as stated: the same validly signed, unexpired token
that succeeds in Bearer form is rejected by the part_015 variant in bare form
with the invalid-scheme response, before any verification. -/
theorem c3_bare_token_rejected_by_part015 :
    aliceVerify "tok".data = .ok ⟨"alice".data, ["user"], some 999999⟩ ∧
    getAuthorizationPart015 true (some "Bearer tok".data) none aliceVerify 5
      = ⟨none, [], some ⟨"alice".data, ["user"], some 999999⟩, true⟩ ∧
    getAuthorizationPart015 true (some "tok".data) none aliceVerify 5
      = ⟨none, [.invalidScheme], none, false⟩ := by
  decide

/-- Claim C3 as amended: the part_021 variant treats the bare and the
Bearer-prefixed forms of a token identically and succeeds on both for a
validly signed, unexpired token with the required roles, while the part_015
variant rejects every bare token with the invalid-scheme response. -/
theorem c3_amended_bearer_acceptance (t : List Char) (p : DecodedToken)
    (roleList? : Option (List String)) (now : Int)
    (verify : List Char → VerifyResult)
    (hne : t ≠ []) (hnospace : ' ' ∉ t)
    (hnopfx : List.isPrefixOf "Bearer ".data t = false)
    (hverify : verify t = .ok p)
    (hroles : ∀ r ∈ roleList?.getD [], p.roleList.contains r = true)
    (hexp : (p.expiresIn.isSome && decide (now > p.expiresIn.getD 0)) = false) :
    getAuthorizationPart021 true (some ("Bearer ".data ++ t)) roleList? verify now
      = getAuthorizationPart021 true (some t) roleList? verify now ∧
    getAuthorizationPart021 true (some t) roleList? verify now
      = ⟨none, [], some p, true⟩ ∧
    getAuthorizationPart015 true (some t) roleList? verify now
      = ⟨none, [.invalidScheme], none, false⟩ := by
  have hpfx : List.isPrefixOf "Bearer ".data ("Bearer ".data ++ t) = true :=
    isPrefixOf_append_self _ _
  have hsw : secondWord ('B' :: 'e' :: 'a' :: 'r' :: 'e' :: 'r' :: ' ' :: t) = t :=
    secondWord_bearer t hnospace
  have hie : t.isEmpty = false := by
    cases t with
    | nil => exact absurd rfl hne
    | cons a b => rfl
  have hie2 : ("Bearer ".data ++ t).isEmpty = false := rfl
  have hrr : roleCheckResponses (roleList?.getD []) p.roleList = [] :=
    roleCheckResponses_nil _ _ hroles
  refine ⟨?_, ?_, ?_⟩
  · simp [getAuthorizationPart021, hie, hie2, hpfx, hnopfx, hsw]
  · simp [getAuthorizationPart021, hie, hnopfx, hverify, hrr, hexp]
  · simp [getAuthorizationPart015, hie, hnopfx]

/-- Witness for the amended C3 at the fixture token. -/
theorem c3_amended_bearer_acceptance_witness :
    ("tok".data ≠ [] ∧ ' ' ∉ "tok".data ∧
     List.isPrefixOf "Bearer ".data "tok".data = false ∧
     aliceVerify "tok".data = .ok ⟨"alice".data, ["user"], some 999999⟩) ∧
    getAuthorizationPart021 true (some ("Bearer ".data ++ "tok".data)) (some ["user"]) aliceVerify 5
      = getAuthorizationPart021 true (some "tok".data) (some ["user"]) aliceVerify 5 ∧
    getAuthorizationPart021 true (some "tok".data) (some ["user"]) aliceVerify 5
      = ⟨none, [], some ⟨"alice".data, ["user"], some 999999⟩, true⟩ ∧
    getAuthorizationPart015 true (some "tok".data) (some ["user"]) aliceVerify 5
      = ⟨none, [.invalidScheme], none, false⟩ :=
  ⟨⟨by decide, by decide, by decide, by decide⟩,
   c3_amended_bearer_acceptance "tok".data ⟨"alice".data, ["user"], some 999999⟩
     (some ["user"]) 5 aliceVerify (by decide) (by decide) (by decide) (by decide)
     (by decide) (by decide)⟩

/-- JWT verification oracle fixture whose embedded application-level expiry
claim is exactly 0, an epoch instant in the past of any positive now. -/
def aliceVerifyZero : List Char → VerifyResult :=
  fun t =>
    if t = "tok".data then .ok ⟨"alice".data, ["user"], some 0⟩
    else .jsonWebTokenError

/-- Counterexample to C4 as stated: a validly signed token whose embedded
expiresIn claim is 0, in the past at now 1000, is not rejected by the part_015
variant; its truthiness guard skips the application-level check and the
request proceeds. -/
theorem c4_zero_expiry_skips_check :
    ((0 : Int) < 1000) ∧
    aliceVerifyZero "tok".data = .ok ⟨"alice".data, ["user"], some 0⟩ ∧
    getAuthorizationPart015 true (some "Bearer tok".data) none aliceVerifyZero 1000
      = ⟨none, [], some ⟨"alice".data, ["user"], some 0⟩, true⟩ := by
  decide

/-- Claim C4 as amended: for every token that passes library verification and
whose embedded expiresIn claim is present, nonzero and in the past, both
authorizer variants fail with the expired response, do not attach claims and
do not call next; but when the signing library itself reports expiry, the
thrown TokenExpiredError is a subclass of JsonWebTokenError and the first
instanceof branch sends the invalid-token response in both variants, so the
embedded application-level check is the only source of the expired failure
(part_015 skips it when the claim is 0 or absent, part_021 only when
absent). -/
theorem c4_amended_app_expiry (t t2 : List Char) (p : DecodedToken) (e : Int)
    (roleList? : Option (List String)) (now : Int)
    (verify : List Char → VerifyResult)
    (hnospace : ' ' ∉ t) (hnospace2 : ' ' ∉ t2)
    (hverify : verify t = .ok p) (he : p.expiresIn = some e) (hnz : e ≠ 0)
    (hpast : e < now)
    (hroles : ∀ r ∈ roleList?.getD [], p.roleList.contains r = true)
    (hverify2 : verify t2 = .tokenExpiredError) :
    getAuthorizationPart015 true (some ("Bearer ".data ++ t)) roleList? verify now
      = ⟨none, [.tokenExpired], none, false⟩ ∧
    getAuthorizationPart021 true (some ("Bearer ".data ++ t)) roleList? verify now
      = ⟨none, [.tokenExpired], none, false⟩ ∧
    getAuthorizationPart015 true (some ("Bearer ".data ++ t2)) roleList? verify now
      = ⟨none, [.tokenInvalid], none, false⟩ ∧
    getAuthorizationPart021 true (some ("Bearer ".data ++ t2)) roleList? verify now
      = ⟨none, [.tokenInvalid], none, false⟩ := by
  have hpfx : List.isPrefixOf "Bearer ".data ("Bearer ".data ++ t) = true :=
    isPrefixOf_append_self _ _
  have hpfx2 : List.isPrefixOf "Bearer ".data ("Bearer ".data ++ t2) = true :=
    isPrefixOf_append_self _ _
  have hsw : secondWord ('B' :: 'e' :: 'a' :: 'r' :: 'e' :: 'r' :: ' ' :: t) = t :=
    secondWord_bearer t hnospace
  have hsw2 : secondWord ('B' :: 'e' :: 'a' :: 'r' :: 'e' :: 'r' :: ' ' :: t2) = t2 :=
    secondWord_bearer t2 hnospace2
  have hie : ("Bearer ".data ++ t).isEmpty = false := rfl
  have hie2 : ("Bearer ".data ++ t2).isEmpty = false := rfl
  have hrr : roleCheckResponses (roleList?.getD []) p.roleList = [] :=
    roleCheckResponses_nil _ _ hroles
  have htruthy : expiresInTruthy p.expiresIn = true := by
    simp [expiresInTruthy, he, hnz]
  have hgt : decide (now > p.expiresIn.getD 0) = true := by
    simp [he]
    omega
  refine ⟨?_, ?_, ?_, ?_⟩
  · simp [getAuthorizationPart015, hie, hpfx, hsw, hverify, hrr, htruthy, hgt]
  · simp [getAuthorizationPart021, hie, hpfx, hsw, hverify, hrr, he, hgt, hpast]
  · simp [getAuthorizationPart015, hie2, hpfx2, hsw2, hverify2]
  · simp [getAuthorizationPart021, hie2, hpfx2, hsw2, hverify2]

/-- Witness for the amended C4 at the fixture token with embedded expiry 10
at now 1000, and a library-expired token that draws the invalid-token
response. -/
theorem c4_amended_app_expiry_witness :
    ((fun t => if t = "tok".data then VerifyResult.ok ⟨"alice".data, ["user"], some 10⟩
      else .tokenExpiredError) "tok".data = .ok ⟨"alice".data, ["user"], some 10⟩) ∧
    ((10 : Int) < 1000) ∧
    getAuthorizationPart015 true (some ("Bearer ".data ++ "tok".data)) none
      (fun t => if t = "tok".data then VerifyResult.ok ⟨"alice".data, ["user"], some 10⟩
        else .tokenExpiredError) 1000
      = ⟨none, [.tokenExpired], none, false⟩ ∧
    getAuthorizationPart021 true (some ("Bearer ".data ++ "old".data)) none
      (fun t => if t = "tok".data then VerifyResult.ok ⟨"alice".data, ["user"], some 10⟩
        else .tokenExpiredError) 1000
      = ⟨none, [.tokenInvalid], none, false⟩ := by
  have h := c4_amended_app_expiry "tok".data "old".data
    ⟨"alice".data, ["user"], some 10⟩ 10 none 1000
    (fun t => if t = "tok".data then VerifyResult.ok ⟨"alice".data, ["user"], some 10⟩
      else .tokenExpiredError)
    (by decide) (by decide) (by decide) (by decide) (by decide) (by decide)
    (by decide) (by decide)
  exact ⟨by decide, by decide, h.1, h.2.2.2⟩

/-- Counterexample to C6 as stated: the header Basic Ym9i decodes to the
payload bob with no colon, so the password component is absent; with an active
user named bob in the store, the getAuthentication.service.ts variant rejects
(bcrypt.compareSync throws on the undefined password and nothing catches it)
instead of returning a tagged error result, while the app.service.ts variant
catches and returns its 500 result. -/
theorem c6_missing_colon_rejects :
    (credentialsOfPayload (b64decodeAscii (secondWord "Basic Ym9i".data))).2 = none ∧
    getAuthenticationService true (some "Basic Ym9i".data) bobStore bobCompare
      (some "1h".data) 0 = .error () ∧
    appServiceGetAuthentication true (some "Basic Ym9i".data) bobStore bobCompare
      (some "1h".data) 0 = .internalError := by
  decide

/-- Claim C6 as amended: the app.service.ts issuer variant returns a tagged
result for every input and every configured lifetime, agreeing with the
getAuthentication.service.ts variant wherever the latter returns one and
yielding the tagged internal error exactly where the latter rejects; and the
getAuthentication.service.ts variant rejects precisely when the header checks
pass, the derived username names an active user, and either the decoded
payload lacks a colon (compareSync throws on the undefined password) or the
password verifies and the JWT.sign lifetime option is absent or not an ms
timespan (sign throws). -/
theorem c6_amended_throw_characterization (sc : Bool) (h : List Char)
    (store : List Char → Option UserRec) (cmp : List Char → List Char → Bool)
    (lt : Option (List Char)) (cfg : List Char) (now : Int) :
    (getAuthenticationService sc (some h) store cmp lt now = .error () ↔
      (sc = true ∧ h.isEmpty = false ∧ List.isPrefixOf "Basic ".data h = true ∧
       ∃ u, store (credentialsOfPayload (b64decodeAscii (secondWord h))).1 = some u ∧
         u.isActive = true ∧
         ((credentialsOfPayload (b64decodeAscii (secondWord h))).2 = none ∨
          ∃ pw, (credentialsOfPayload (b64decodeAscii (secondWord h))).2 = some pw ∧
            cmp pw u.passwordHash = true ∧ signThrows lt = true))) ∧
    appServiceGetAuthentication sc (some h) store cmp (some cfg) now
      = (match getAuthenticationService sc (some h) store cmp (some cfg) now with
         | .error _ => .internalError
         | .ok r => r) := by
  rcases hcred : credentialsOfPayload (b64decodeAscii (secondWord h)) with ⟨username, pw?⟩
  cases sc with
  | false => simp [getAuthenticationService, appServiceGetAuthentication]
  | true =>
    cases hie : h.isEmpty with
    | true => simp [getAuthenticationService, appServiceGetAuthentication, hie]
    | false =>
      cases hpfx : List.isPrefixOf "Basic ".data h with
      | false =>
        simp [getAuthenticationService, appServiceGetAuthentication, hie, hpfx]
      | true =>
        cases hstore : store username with
        | none =>
          simp [getAuthenticationService, appServiceGetAuthentication, hie, hpfx,
            hcred, hstore]
        | some user =>
          cases hact : user.isActive with
          | false =>
            simp [getAuthenticationService, appServiceGetAuthentication, hie, hpfx,
              hcred, hstore, hact]
          | true =>
            cases pw? with
            | none =>
              simp [getAuthenticationService, appServiceGetAuthentication, hie, hpfx,
                hcred, hstore, hact]
            | some pw =>
              cases hcmp : cmp pw user.passwordHash with
              | false =>
                simp [getAuthenticationService, appServiceGetAuthentication, hie, hpfx,
                  hcred, hstore, hact, hcmp]
              | true =>
                refine ⟨?_, ?_⟩
                · cases hsign : signThrows lt with
                  | true =>
                    simp [getAuthenticationService, hie, hpfx, hcred, hstore, hact,
                      hcmp, hsign]
                  | false =>
                    simp [getAuthenticationService, hie, hpfx, hcred, hstore, hact,
                      hcmp, hsign]
                · cases hms : msAccepts cfg with
                  | true =>
                    simp [getAuthenticationService, appServiceGetAuthentication, hie,
                      hpfx, hcred, hstore, hact, hcmp, signThrows, hms]
                  | false =>
                    simp [getAuthenticationService, appServiceGetAuthentication, hie,
                      hpfx, hcred, hstore, hact, hcmp, signThrows, hms]

end SigmaNeppo
